import Mathlib

/-!
Shallow embedding of the keyframe spline animation engine of
`src/scripts/splineLoader.js` (class `SplineLoader`).

JavaScript numbers are modelled as rationals (`ℚ`), arrays as lists,
absent object fields (`undefined`) as `Option`, and a thrown `TypeError`
as `Except.error ()`.  The flat Float32 position buffer handed to the
geometry is modelled as a `List ℚ` of coordinates.
-/

set_option autoImplicit false

namespace SplineAnim

/-- A 3D point `{x, y, z}` (`Point3` of the data model). -/
structure Point3 where
  x : ℚ
  y : ℚ
  z : ℚ
  deriving DecidableEq, Repr

/-- A Bezier control point: knot with independent in/out tangent handles. -/
structure ControlPoint where
  knot : Point3
  inHandle : Point3
  outHandle : Point3
  deriving DecidableEq, Repr

/-- A curve segment: `splineIndex` (possibly absent) and a control point
array (possibly absent, as the JS code guards `curve.points`). -/
structure Curve where
  splineIndex : Option ℚ
  points : Option (List ControlPoint)
  deriving DecidableEq, Repr

/-- A keyframe: frame number plus either raw points, curve segments,
both, or neither (the JS code probes `frame.points` / `frame.curves`). -/
structure Frame where
  frameNum : ℚ
  points : Option (List Point3)
  curves : Option (List Curve)
  deriving DecidableEq, Repr

/-- One spline track: the fields of the per-spline object built in
`parseSplineData`.  `buffer` is the flat position attribute of the
geometry; `material` is an abstract handle to the externally owned
material; `visible` is the mesh visibility flag. -/
structure Spline where
  name : String
  frames : List Frame
  closed : Bool
  buffer : List ℚ
  material : ℕ
  visible : Bool
  deriving DecidableEq, Repr

/-- Asset metadata (`data.metadata`): optional frame rate and closed flag. -/
structure Metadata where
  frameRate : Option ℚ
  closed : Option Bool
  deriving DecidableEq, Repr

/-- The `SplineLoader` instance state (constructor fields plus `metadata`). -/
structure LoaderState where
  splines : List Spline
  currentTime : ℚ
  duration : ℚ
  isPlaying : Bool
  loop : Bool
  speed : ℚ
  metadata : Metadata
  deriving DecidableEq, Repr

/-- JS `a || b` for an optional number: `undefined` and `0` are falsy. -/
def jsOrQ : Option ℚ → ℚ → ℚ
  | some q, d => if q = 0 then d else q
  | none, d => d

/-- `this.metadata.frameRate || 30` (30 fps default; 0 is falsy in JS). -/
def getFrameRate (m : Metadata) : ℚ :=
  jsOrQ m.frameRate 30

/-- Modelled from the spec: `THREE.MathUtils.lerp` (the three.js library is
external to the repository): `lerp(a,b,t) = a + (b-a)*t`. -/
def lerpQ (a b t : ℚ) : ℚ :=
  a + (b - a) * t

/-- Component-wise linear interpolation of two points, as pushed by
`interpolatePoints`. -/
def lerpP (p q : Point3) (t : ℚ) : Point3 :=
  ⟨lerpQ p.x q.x t, lerpQ p.y q.y t, lerpQ p.z q.z t⟩

/-- Interpolation of one control point: knot, inHandle and outHandle are
lerped independently, component-wise (`interpolateBezierCurves` body). -/
def lerpCP (p q : ControlPoint) (t : ℚ) : ControlPoint :=
  ⟨lerpP p.knot q.knot t, lerpP p.inHandle q.inHandle t, lerpP p.outHandle q.outHandle t⟩

/-- `interpolatePoints(points1, points2, t)`: the JS body immediately reads
`points1.length` and `points2.length`, so an absent array throws a
`TypeError` (`Except.error`); otherwise it pairs points up to the minimum
length and lerps component-wise. -/
def interpolatePoints (points1 points2 : Option (List Point3)) (t : ℚ) :
    Except Unit (List Point3) :=
  match points1, points2 with
  | some ps1, some ps2 => .ok (List.zipWith (fun p q => lerpP p q t) ps1 ps2)
  | _, _ => .error ()

/-- `curve1.splineIndex || curve2.splineIndex || i + 1` (JS `||`: absent
and `0` are falsy). -/
def resolveSplineIndex (a b : Option ℚ) (i : ℕ) : ℚ :=
  jsOrQ a (jsOrQ b ((i : ℚ) + 1))

/-- The indexed loop of `interpolateBezierCurves`: runs `i` from 0 up to
`min(curves1.length, curves2.length)` (pairing by index, extras dropped);
a pair is pushed only when both curves carry a `points` array, in which
case control points are paired up to the minimum count and lerped. -/
def interpCurvesGo (t : ℚ) : List Curve → List Curve → ℕ → List Curve
  | c1 :: r1, c2 :: r2, i =>
    match c1.points, c2.points with
    | some ps1, some ps2 =>
      { splineIndex := resolveSplineIndex c1.splineIndex c2.splineIndex i,
        points := some (List.zipWith (fun p q => lerpCP p q t) ps1 ps2) } ::
        interpCurvesGo t r1 r2 (i + 1)
    | _, _ => interpCurvesGo t r1 r2 (i + 1)
  | _, _, _ => []

/-- `interpolateBezierCurves(curves1, curves2, t)`. -/
def interpolateBezierCurves (curves1 curves2 : List Curve) (t : ℚ) : List Curve :=
  interpCurvesGo t curves1 curves2 0

/-- Modelled from the spec: a point of `THREE.CubicBezierCurve3` (external
library), the standard cubic Bernstein combination of the four control
positions. -/
def cubicBezierPoint (p0 p1 p2 p3 : Point3) (t : ℚ) : Point3 :=
  let b0 := (1 - t) ^ 3
  let b1 := 3 * (1 - t) ^ 2 * t
  let b2 := 3 * (1 - t) * t ^ 2
  let b3 := t ^ 3
  ⟨b0 * p0.x + b1 * p1.x + b2 * p2.x + b3 * p3.x,
   b0 * p0.y + b1 * p1.y + b2 * p2.y + b3 * p3.y,
   b0 * p0.z + b1 * p1.z + b2 * p2.z + b3 * p3.z⟩

/-- Modelled from the spec: `curve.getPoints(divisions)` of the external
three.js library samples the curve at `divisions + 1` evenly-parameterized
values `d / divisions`, `d = 0, …, divisions`. -/
def cubicGetPoints (p0 p1 p2 p3 : Point3) (divisions : ℕ) : List Point3 :=
  (List.range (divisions + 1)).map
    (fun d => cubicBezierPoint p0 p1 p2 p3 ((d : ℚ) / (divisions : ℚ)))

/-- The arc loop of `generateBezierCurve`: for each pair of consecutive
control points, one cubic Bezier arc from `current.knot` through
`current.outHandle` and `next.inHandle` to `next.knot`. -/
def genArcs (segments : ℕ) : List ControlPoint → List Point3
  | current :: next :: rest =>
    cubicGetPoints current.knot current.outHandle next.inHandle next.knot segments ++
      genArcs segments (next :: rest)
  | _ => []

/-- `generateBezierCurve(bezierPoints, segments)`: the guard
`bezierPoints.length < 2` returns `[]` immediately, which makes the
trailing `length === 1` block of the JS function (which would push the
single knot) unreachable. -/
def generateBezierCurve (bezierPoints : List ControlPoint) (segments : ℕ) : List Point3 :=
  if bezierPoints.length < 2 then []
  else genArcs segments bezierPoints

/-- The dynamically typed `interpolatedData` local of
`updateSplineGeometry`: an array of curve objects or an array of raw
points (when `undefined`, it is modelled as `Option.none` at use sites). -/
inductive InterpData where
  | curveData : List Curve → InterpData
  | pointData : List Point3 → InterpData
  deriving DecidableEq, Repr

/-- `prevFrame.curves || prevFrame.points` (arrays, even empty ones, are
truthy; only absence falls through). -/
def frameData (f : Frame) : Option InterpData :=
  match f.curves with
  | some cs => some (.curveData cs)
  | none => f.points.map .pointData

/-- The keyframe scan loop of `updateSplineGeometry` (lines 92-101):
`prevFrame` is the last frame with `frame ≤ target` seen so far, and the
loop breaks at the first frame with `frame ≥ target`, which becomes
`nextFrame`. -/
def findBracket (target : ℚ) : List Frame → Option Frame → Option Frame × Option Frame
  | [], prev => (prev, none)
  | f :: rest, prev =>
    let prev' := if f.frameNum ≤ target then some f else prev
    if target ≤ f.frameNum then (prev', some f)
    else findBracket target rest prev'

/-- The edge-case handling after the scan: no frames at all yields no
bracket; a missing side is clamped to the other. -/
def resolveBracket (frames : List Frame) (target : ℚ) : Option (Frame × Frame) :=
  match findBracket target frames none with
  | (none, none) => none
  | (some p, none) => some (p, p)
  | (none, some n) => some (n, n)
  | (some p, some n) => some (p, n)

/-- The `interpolatedData` computation: identical bracket sides are used
directly (`prevFrame === nextFrame`); otherwise the interpolation factor
`t` is computed (0 on a zero frame difference) and either the Bezier
branch (both frames carry `curves`) or the point fallback is taken.  The
fallback can throw when a side lacks `points`. -/
def computeInterp (p n : Frame) (target : ℚ) : Except Unit (Option InterpData) :=
  if p = n then .ok (frameData p)
  else
    let frameDiff := n.frameNum - p.frameNum
    let t := if frameDiff = 0 then 0 else (target - p.frameNum) / frameDiff
    match p.curves, n.curves with
    | some cs1, some cs2 => .ok (some (.curveData (interpolateBezierCurves cs1 cs2 t)))
    | _, _ => (interpolatePoints p.points n.points t).map (fun ps => some (.pointData ps))

/-- The x,y,z coordinates pushed for one point. -/
def coords (p : Point3) : List ℚ :=
  [p.x, p.y, p.z]

/-- The geometry-generation block (lines 134-152).  The first branch
matches whenever `interpolatedData` is an array; for curve data it
tessellates each curve that carries a `points` array.  For raw point data
the same branch runs, but a point object has no `points` field, so every
element is skipped and nothing is emitted: the `else if` carrying the
point pass-through repeats the first branch's condition and is
unreachable dead code. -/
def genPositions : Option InterpData → List ℚ
  | some (.curveData cs) =>
    cs.flatMap (fun c =>
      match c.points with
      | some ps => (generateBezierCurve ps 20).flatMap coords
      | none => [])
  | some (.pointData _) => []
  | none => []

/-- Closing push (lines 155-157): when the track is closed and the buffer
is non-empty, the first three scalars (the first position) are appended. -/
def closePositions (closed : Bool) (positions : List ℚ) : List ℚ :=
  if closed ∧ positions ≠ [] then positions ++ positions.take 3 else positions

/-- `updateSplineGeometry(spline, time)`: resolves the bracketing
keyframes, interpolates, and rewrites the track's position buffer; with
no frames it returns before touching the geometry. -/
def updateSplineGeometry (m : Metadata) (sp : Spline) (time : ℚ) : Except Unit Spline :=
  let frameRate := getFrameRate m
  let targetFrame := time * frameRate
  match resolveBracket sp.frames targetFrame with
  | none => .ok sp
  | some (p, n) =>
    (computeInterp p n targetFrame).map
      (fun idata => { sp with buffer := closePositions sp.closed (genPositions idata) })

/-- The `forEach` of `updateSplines` over the track list: a thrown
exception propagates and stops the iteration. -/
def updateSplinesList (m : Metadata) (time : ℚ) : List Spline → Except Unit (List Spline)
  | [] => .ok []
  | sp :: rest => do
    let sp' ← updateSplineGeometry m sp time
    let rest' ← updateSplinesList m time rest
    .ok (sp' :: rest')

/-- `updateSplines()`: re-tessellates every track at `currentTime`. -/
def updateSplines (s : LoaderState) : Except Unit LoaderState :=
  (updateSplinesList s.metadata s.currentTime s.splines).map
    (fun l => { s with splines := l })

/-- JS truncating division: `%` truncates the quotient toward zero. -/
def truncQ (q : ℚ) : ℤ :=
  if 0 ≤ q then ⌊q⌋ else ⌈q⌉

/-- The JS remainder operator `a % b` on numbers (sign of the dividend). -/
def jsMod (a b : ℚ) : ℚ :=
  a - b * truncQ (a / b)

/-- The time-advance part of `update(deltaTime)` (lines 311-320): advance
by `deltaTime * speed`, then wrap modulo `duration` when looping, or
clamp to `duration` and leave the playing state when the clamp condition
holds. -/
def updateTime (s : LoaderState) (deltaTime : ℚ) : LoaderState :=
  let ct := s.currentTime + deltaTime * s.speed
  if s.loop then { s with currentTime := jsMod ct s.duration }
  else
    let c := min ct s.duration
    { s with currentTime := c, isPlaying := if s.duration ≤ c then false else s.isPlaying }

/-- `update(deltaTime)`: no-op unless playing with a nonzero duration;
otherwise advances time and re-tessellates every track. -/
def update (s : LoaderState) (deltaTime : ℚ) : Except Unit LoaderState :=
  if s.isPlaying = false ∨ s.duration = 0 then .ok s
  else updateSplines (updateTime s deltaTime)

/-- `setTime(time)`: clamp to `[0, duration]` and re-tessellate. -/
def setTime (s : LoaderState) (time : ℚ) : Except Unit LoaderState :=
  updateSplines { s with currentTime := max 0 (min time s.duration) }

/-- `setProgress(progress)`: clamp to `[0,1]`, scale by duration, delegate
to `setTime`. -/
def setProgress (s : LoaderState) (progress : ℚ) : Except Unit LoaderState :=
  setTime s (max 0 (min 1 progress) * s.duration)

/-- `play()`. -/
def play (s : LoaderState) : LoaderState :=
  { s with isPlaying := true }

/-- `pause()`. -/
def pause (s : LoaderState) : LoaderState :=
  { s with isPlaying := false }

/-- `stop()`: reset to time 0 and re-tessellate. -/
def stop (s : LoaderState) : Except Unit LoaderState :=
  updateSplines { s with isPlaying := false, currentTime := 0 }

/-- `getProgress()`: guards division by a zero duration. -/
def getProgress (s : LoaderState) : ℚ :=
  if 0 < s.duration then s.currentTime / s.duration else 0

end SplineAnim

/-! ## Supporting lemmas -/

namespace SplineAnim

theorem findBracket_fst_mem (target : ℚ) :
    ∀ (frames : List Frame) (acc : Option Frame) (p : Frame),
      (findBracket target frames acc).1 = some p → p ∈ frames ∨ acc = some p
  | [], _, _, h => Or.inr h
  | f :: rest, acc, p, h => by
    simp only [findBracket] at h
    by_cases hle : target ≤ f.frameNum
    · rw [if_pos hle] at h
      simp only at h
      by_cases hge : f.frameNum ≤ target
      · rw [if_pos hge] at h
        exact Or.inl (by simp [← Option.some.injEq _ _ |>.mp h])
      · rw [if_neg hge] at h
        exact Or.inr h
    · rw [if_neg hle] at h
      rcases findBracket_fst_mem target rest _ p h with hm | hacc
      · exact Or.inl (List.mem_cons_of_mem _ hm)
      · by_cases hge : f.frameNum ≤ target
        · rw [if_pos hge] at hacc
          exact Or.inl (by simp [← Option.some.injEq _ _ |>.mp hacc])
        · rw [if_neg hge] at hacc
          exact Or.inr hacc

theorem findBracket_snd_mem (target : ℚ) :
    ∀ (frames : List Frame) (acc : Option Frame) (n : Frame),
      (findBracket target frames acc).2 = some n → n ∈ frames
  | [], _, _, h => by simp [findBracket] at h
  | f :: rest, acc, n, h => by
    simp only [findBracket] at h
    by_cases hle : target ≤ f.frameNum
    · rw [if_pos hle] at h
      simp only at h
      exact (by simp [← Option.some.injEq _ _ |>.mp h])
    · rw [if_neg hle] at h
      exact List.mem_cons_of_mem _ (findBracket_snd_mem target rest _ n h)

theorem resolveBracket_mem (frames : List Frame) (target : ℚ) (p n : Frame)
    (h : resolveBracket frames target = some (p, n)) : p ∈ frames ∧ n ∈ frames := by
  unfold resolveBracket at h
  rcases hfb : findBracket target frames none with ⟨po, no⟩
  rw [hfb] at h
  have hfst : ∀ x, po = some x → x ∈ frames := fun x hx => by
    have hm := findBracket_fst_mem target frames none x (by rw [hfb]; exact hx)
    rcases hm with hm | hm
    · exact hm
    · exact absurd hm (by simp)
  have hsnd : ∀ x, no = some x → x ∈ frames := fun x hx =>
    findBracket_snd_mem target frames none x (by rw [hfb]; exact hx)
  rcases po with _ | a <;> rcases no with _ | b <;>
    simp only [Option.some.injEq, Prod.mk.injEq] at h <;>
    obtain ⟨hp, hn⟩ := h <;> subst hp <;> subst hn
  · exact ⟨hsnd _ rfl, hsnd _ rfl⟩
  · exact ⟨hfst _ rfl, hfst _ rfl⟩
  · exact ⟨hfst _ rfl, hsnd _ rfl⟩

end SplineAnim

namespace SplineAnim

theorem computeInterp_ok (p n : Frame) (target : ℚ)
    (h : (p.points.isSome ∧ n.points.isSome) ∨ (p.curves.isSome ∧ n.curves.isSome)) :
    ∃ d, computeInterp p n target = .ok d := by
  rcases hres : computeInterp p n target with _ | d
  · exfalso
    by_cases hpn : p = n
    · simp [computeInterp, hpn] at hres
    · rcases hc1 : p.curves with _ | cs1 <;> rcases hc2 : n.curves with _ | cs2
      case neg.some.some => simp [computeInterp, if_neg hpn, hc1, hc2] at hres
      all_goals {
        have hp2 : p.points.isSome ∧ n.points.isSome := by
          rcases h with h2 | h2
          · exact h2
          · simp [hc1, hc2] at h2
        obtain ⟨ps1, hps1⟩ := Option.isSome_iff_exists.mp hp2.1
        obtain ⟨ps2, hps2⟩ := Option.isSome_iff_exists.mp hp2.2
        simp [computeInterp, if_neg hpn, hc1, hc2, hps1, hps2, interpolatePoints,
          Except.map] at hres
      }
  · exact ⟨d, rfl⟩

theorem updateSplineGeometry_ok (m : Metadata) (sp : Spline) (time : ℚ)
    (h : (∀ f ∈ sp.frames, f.points.isSome) ∨ (∀ f ∈ sp.frames, f.curves.isSome)) :
    ∃ sp2, updateSplineGeometry m sp time = .ok sp2 := by
  rcases hres : updateSplineGeometry m sp time with _ | sp2
  · exfalso
    rcases hrb : resolveBracket sp.frames (time * getFrameRate m) with _ | ⟨p, n⟩
    · simp [updateSplineGeometry, hrb] at hres
    · obtain ⟨hp, hn⟩ := resolveBracket_mem _ _ _ _ hrb
      obtain ⟨d, hd⟩ := computeInterp_ok p n (time * getFrameRate m)
        (h.imp (fun hh => ⟨hh p hp, hh n hn⟩) (fun hh => ⟨hh p hp, hh n hn⟩))
      simp [updateSplineGeometry, hrb, hd, Except.map] at hres
  · exact ⟨sp2, rfl⟩

theorem updateSplineGeometry_nil (m : Metadata) (sp : Spline) (time : ℚ)
    (h : sp.frames = []) : updateSplineGeometry m sp time = .ok sp := by
  simp [updateSplineGeometry, resolveBracket, h, findBracket]

theorem updateSplineGeometry_fields (m : Metadata) (sp sp2 : Spline) (time : ℚ)
    (h : updateSplineGeometry m sp time = .ok sp2) :
    sp2.name = sp.name ∧ sp2.frames = sp.frames ∧ sp2.closed = sp.closed ∧
      sp2.material = sp.material ∧ sp2.visible = sp.visible := by
  simp only [updateSplineGeometry] at h
  rcases hrb : resolveBracket sp.frames (time * getFrameRate m) with _ | ⟨p, n⟩ <;>
    simp only [hrb] at h
  · simp only [Except.ok.injEq] at h
    subst h; exact ⟨rfl, rfl, rfl, rfl, rfl⟩
  · rcases hci : computeInterp p n (time * getFrameRate m) with _ | d <;>
      simp only [hci, Except.map, Except.ok.injEq] at h
    · exact absurd h (by simp)
    · subst h; exact ⟨rfl, rfl, rfl, rfl, rfl⟩

theorem updateSplinesList_ok (m : Metadata) (time : ℚ) :
    ∀ l : List Spline, (∀ sp ∈ l, ∃ sp2, updateSplineGeometry m sp time = .ok sp2) →
      ∃ l2, updateSplinesList m time l = .ok l2
  | [], _ => ⟨[], rfl⟩
  | sp :: rest, h => by
    obtain ⟨sp2, h1⟩ := h sp (List.mem_cons_self sp rest)
    obtain ⟨l2, h2⟩ := updateSplinesList_ok m time rest
      (fun x hx => h x (List.mem_cons_of_mem _ hx))
    exact ⟨sp2 :: l2, by simp [updateSplinesList, h1, h2, Bind.bind, Except.bind]⟩

theorem updateSplinesList_get (m : Metadata) (time : ℚ) :
    ∀ (l l2 : List Spline), updateSplinesList m time l = .ok l2 →
      ∀ (i : ℕ) (sp : Spline), l.get? i = some sp →
        ∃ sp2, l2.get? i = some sp2 ∧ updateSplineGeometry m sp time = .ok sp2
  | [], _, _, i, sp, hg => by simp at hg
  | sp0 :: rest, l2, hok, i, sp, hg => by
    rcases h1 : updateSplineGeometry m sp0 time with _ | sp0x <;>
      rcases h2 : updateSplinesList m time rest with _ | restx <;>
      simp only [updateSplinesList, h1, h2, Bind.bind, Except.bind,
        Except.ok.injEq] at hok
    · exact absurd hok (by simp)
    · exact absurd hok (by simp)
    · exact absurd hok (by simp)
    · subst hok
      rcases i with _ | i
      · simp only [List.get?, Option.some.injEq] at hg ⊢
        exact ⟨sp0x, rfl, by rw [← hg]; exact h1⟩
      · simp only [List.get?] at hg ⊢
        exact updateSplinesList_get m time rest restx h2 i sp hg

theorem updateSplinesList_length (m : Metadata) (time : ℚ) :
    ∀ (l l2 : List Spline), updateSplinesList m time l = .ok l2 → l2.length = l.length
  | [], l2, hok => by
    simp only [updateSplinesList, Except.ok.injEq] at hok
    subst hok; rfl
  | sp0 :: rest, l2, hok => by
    rcases h1 : updateSplineGeometry m sp0 time with _ | sp0x <;>
      rcases h2 : updateSplinesList m time rest with _ | restx <;>
      simp only [updateSplinesList, h1, h2, Bind.bind, Except.bind,
        Except.ok.injEq] at hok
    · exact absurd hok (by simp)
    · exact absurd hok (by simp)
    · exact absurd hok (by simp)
    · subst hok
      simp [updateSplinesList_length m time rest restx h2]

theorem updateSplines_ok_shape (s s2 : LoaderState) (h : updateSplines s = .ok s2) :
    ∃ l, updateSplinesList s.metadata s.currentTime s.splines = .ok l ∧
      s2 = { s with splines := l } := by
  unfold updateSplines at h
  rcases hul : updateSplinesList s.metadata s.currentTime s.splines with _ | l <;>
    simp only [hul, Except.map, Except.ok.injEq] at h
  · exact absurd h (by simp)
  · exact ⟨l, rfl, h.symm⟩

theorem updateSplines_of_list_ok (s : LoaderState)
    (h : ∀ sp ∈ s.splines, (∀ f ∈ sp.frames, f.points.isSome) ∨
      (∀ f ∈ sp.frames, f.curves.isSome)) :
    ∃ s2, updateSplines s = .ok s2 := by
  rcases hres : updateSplines s with _ | s2
  · exfalso
    obtain ⟨l, hl⟩ := updateSplinesList_ok s.metadata s.currentTime s.splines
      (fun sp hsp => updateSplineGeometry_ok _ _ _ (h sp hsp))
    simp [updateSplines, hl, Except.map] at hres
  · exact ⟨s2, rfl⟩

theorem updateTime_splines (s : LoaderState) (dt : ℚ) :
    (updateTime s dt).splines = s.splines := by
  unfold updateTime; split <;> rfl

theorem updateTime_scalar (s : LoaderState) (dt : ℚ) :
    (updateTime s dt).duration = s.duration ∧ (updateTime s dt).loop = s.loop ∧
      (updateTime s dt).speed = s.speed ∧ (updateTime s dt).metadata = s.metadata := by
  unfold updateTime; split <;> exact ⟨rfl, rfl, rfl, rfl⟩

end SplineAnim

namespace SplineAnim

theorem jsMod_eq_fract (a b : ℚ) (ha : 0 ≤ a) (hb : 0 < b) :
    jsMod a b = b * Int.fract (a / b) := by
  have h0 : 0 ≤ a / b := div_nonneg ha hb.le
  rw [jsMod, truncQ, if_pos h0, Int.fract]
  rw [mul_sub, mul_div_cancel₀ a hb.ne']

theorem jsMod_nonneg (a b : ℚ) (ha : 0 ≤ a) (hb : 0 < b) : 0 ≤ jsMod a b := by
  rw [jsMod_eq_fract a b ha hb]
  exact mul_nonneg hb.le (Int.fract_nonneg _)

theorem jsMod_lt (a b : ℚ) (ha : 0 ≤ a) (hb : 0 < b) : jsMod a b < b := by
  rw [jsMod_eq_fract a b ha hb]
  calc b * Int.fract (a / b) < b * 1 := by
        exact mul_lt_mul_of_pos_left (Int.fract_lt_one _) hb
    _ = b := mul_one b

theorem interpCurvesGo_length (t : ℚ) :
    ∀ (cs1 cs2 : List Curve) (k : ℕ),
      (∀ c ∈ cs1, c.points.isSome) → (∀ c ∈ cs2, c.points.isSome) →
      (interpCurvesGo t cs1 cs2 k).length = min cs1.length cs2.length
  | [], cs2, k, _, _ => by cases cs2 <;> simp [interpCurvesGo]
  | c1 :: r1, [], k, _, _ => by simp [interpCurvesGo]
  | c1 :: r1, c2 :: r2, k, h1, h2 => by
    obtain ⟨ps1, hps1⟩ := Option.isSome_iff_exists.mp (h1 c1 (List.mem_cons_self c1 r1))
    obtain ⟨ps2, hps2⟩ := Option.isSome_iff_exists.mp (h2 c2 (List.mem_cons_self c2 r2))
    have ih := interpCurvesGo_length t r1 r2 (k + 1)
      (fun x hx => h1 x (List.mem_cons_of_mem _ hx))
      (fun x hx => h2 x (List.mem_cons_of_mem _ hx))
    simp [interpCurvesGo, hps1, hps2, ih, Nat.succ_min_succ]

theorem interpCurvesGo_get (t : ℚ) :
    ∀ (cs1 cs2 : List Curve) (k i : ℕ),
      (∀ c ∈ cs1, c.points.isSome) → (∀ c ∈ cs2, c.points.isSome) →
      (interpCurvesGo t cs1 cs2 k).get? i =
        (cs1.get? i).bind (fun c1 => (cs2.get? i).map (fun c2 =>
          { splineIndex := resolveSplineIndex c1.splineIndex c2.splineIndex (k + i),
            points := some (List.zipWith (fun p q => lerpCP p q t)
              (c1.points.getD []) (c2.points.getD [])) }))
  | [], cs2, k, i, _, _ => by cases cs2 <;> simp [interpCurvesGo]
  | c1 :: r1, [], k, i, _, _ => by
    cases i <;> simp [interpCurvesGo]
  | c1 :: r1, c2 :: r2, k, i, h1, h2 => by
    obtain ⟨ps1, hps1⟩ := Option.isSome_iff_exists.mp (h1 c1 (List.mem_cons_self c1 r1))
    obtain ⟨ps2, hps2⟩ := Option.isSome_iff_exists.mp (h2 c2 (List.mem_cons_self c2 r2))
    rcases i with _ | i
    · simp [interpCurvesGo, hps1, hps2]
    · have ih := interpCurvesGo_get t r1 r2 (k + 1) i
        (fun x hx => h1 x (List.mem_cons_of_mem _ hx))
        (fun x hx => h2 x (List.mem_cons_of_mem _ hx))
      have he : k + 1 + i = k + (i + 1) := by omega
      rw [he] at ih
      simp only [interpCurvesGo, hps1, hps2, List.get?]
      exact ih

end SplineAnim

/-! ## Claim theorems -/

namespace SplineAnim

/-- C1: raw point frames are NOT passed through.  Evaluating
`updateSplineGeometry` on a track whose frame at the current time carries
only raw `Point3` data shows the position buffer rewritten to the empty
list instead of receiving the points `[1,2,3,4,5,6]`: the point
pass-through branch of the source repeats the first branch's condition
and is unreachable, so every raw point is dropped. -/
theorem raw_points_dropped_eval :
    updateSplineGeometry ⟨none, none⟩
        ⟨"a", [⟨0, some [⟨1, 2, 3⟩, ⟨4, 5, 6⟩], none⟩], false, [9, 9, 9], 0, true⟩ 0 =
      .ok ⟨"a", [⟨0, some [⟨1, 2, 3⟩, ⟨4, 5, 6⟩], none⟩], false, [], 0, true⟩ := by
  norm_num [updateSplineGeometry, getFrameRate, jsOrQ, resolveBracket, findBracket,
    computeInterp, frameData, genPositions, closePositions, Except.map]

/-- C2: a curve segment with exactly one control point tessellates to the
empty list, not to its single knot position: the `length < 2` early
return of `generateBezierCurve` fires before the single-point block. -/
theorem single_control_point_empty_eval :
    generateBezierCurve [⟨⟨1, 2, 3⟩, ⟨1, 2, 3⟩, ⟨1, 2, 3⟩⟩] 20 = [] := by
  simp [generateBezierCurve]

/-- C8: `setProgress` clamps its argument to `[0,1]` before scaling by the
duration, so `setProgress (-1)` produces exactly the state (and buffers)
of `setProgress 0`, and `setProgress 2` exactly those of `setProgress 1`. -/
theorem setProgress_clamp (s : LoaderState) (p : ℚ) :
    setProgress s p = setTime s (max 0 (min 1 p) * s.duration) ∧
    setProgress s (-1) = setProgress s 0 ∧
    setProgress s 2 = setProgress s 1 := by
  refine ⟨rfl, ?_, ?_⟩ <;> unfold setProgress <;> norm_num

/-- C9: a track with zero keyframes is left completely untouched by
`updateSplineGeometry` (its existing position buffer is neither cleared
nor rewritten), and consequently a `setTime` call leaves such a track
unchanged in the track list. -/
theorem empty_frames_track_untouched (m : Metadata) (sp : Spline) (time : ℚ)
    (h : sp.frames = []) :
    updateSplineGeometry m sp time = .ok sp ∧
    ∀ (s s2 : LoaderState) (i : ℕ) (t : ℚ),
      s.splines.get? i = some sp → setTime s t = .ok s2 →
        s2.splines.get? i = some sp := by
  refine ⟨updateSplineGeometry_nil m sp time h, ?_⟩
  intro s s2 i t hg hst
  obtain ⟨l, hl, hs2⟩ := updateSplines_ok_shape _ _ hst
  obtain ⟨sp2, hg2, hup⟩ := updateSplinesList_get _ _ _ _ hl i sp hg
  rw [updateSplineGeometry_nil _ _ _ h] at hup
  rw [hs2]
  simpa [← Except.ok.injEq _ _ |>.mp hup] using hg2

/-- C9 witness: a concrete frameless track with a pre-existing buffer is
returned unchanged. -/
theorem empty_frames_track_untouched_witness :
    updateSplineGeometry ⟨none, none⟩ ⟨"track", [], false, [1, 2, 3], 0, true⟩ 5 =
      .ok ⟨"track", [], false, [1, 2, 3], 0, true⟩ :=
  (empty_frames_track_untouched ⟨none, none⟩ ⟨"track", [], false, [1, 2, 3], 0, true⟩ 5 rfl).1

end SplineAnim

namespace SplineAnim

/-- C3 counterexample: steady-state playback CAN throw.  A loaded state
whose track brackets a curves-only frame (frame 0) with a points-only
frame (frame 10) makes `setTime` reach the point-interpolation fallback
with an absent `points` array on the first frame, which throws a
`TypeError` instead of degrading to a no-op. -/
theorem setTime_mixed_bracket_throws :
    setTime
      ⟨[⟨"m", [⟨0, none, some [⟨none, some [⟨⟨0, 0, 0⟩, ⟨0, 0, 0⟩, ⟨0, 0, 0⟩⟩]⟩]⟩,
               ⟨10, some [⟨1, 1, 1⟩], none⟩], false, [], 0, true⟩],
        0, 1, false, true, 1, ⟨none, none⟩⟩ (1 / 6) = .error () := by
  norm_num [setTime, updateSplines, updateSplinesList, updateSplineGeometry,
    getFrameRate, jsOrQ, resolveBracket, findBracket, computeInterp,
    interpolatePoints, Except.map, Bind.bind, Except.bind, Frame.mk.injEq]

/-- C3 amended: for every loaded state whose tracks are homogeneous (each
track's frames all carry a raw points array, or all carry a curves
array), no steady-state playback call throws: `setTime`, `setProgress`,
`update` and `stop` all return a successor state.  Missing frames, zero
duration and empty arrays are guarded; only a mixed or data-less bracket
reaching the point fallback throws. -/
theorem steady_state_no_throw (s : LoaderState)
    (h : ∀ sp ∈ s.splines, (∀ f ∈ sp.frames, f.points.isSome) ∨
      (∀ f ∈ sp.frames, f.curves.isSome)) (t dt p : ℚ) :
    setTime s t ≠ .error () ∧ setProgress s p ≠ .error () ∧
      update s dt ≠ .error () ∧ stop s ≠ .error () := by
  have hset : ∀ c : ℚ, updateSplines { s with currentTime := c } ≠ .error () := by
    intro c
    obtain ⟨s2, hs2⟩ := updateSplines_of_list_ok { s with currentTime := c } h
    simp [hs2]
  refine ⟨hset _, hset _, ?_, ?_⟩
  · unfold update
    split
    · simp
    · obtain ⟨s2, hs2⟩ := updateSplines_of_list_ok (updateTime s dt)
        (by rw [updateTime_splines]; exact h)
      simp [hs2]
  · unfold stop
    obtain ⟨s2, hs2⟩ := updateSplines_of_list_ok
      { s with isPlaying := false, currentTime := 0 } h
    simp [hs2]

/-- C3 witness: a concrete homogeneous (all point frames) state scrubs
without throwing. -/
theorem steady_state_no_throw_witness :
    setTime
      ⟨[⟨"a", [⟨0, some [⟨0, 0, 0⟩], none⟩, ⟨10, some [⟨1, 1, 1⟩], none⟩],
          false, [], 0, true⟩], 0, 1, true, true, 1, ⟨none, none⟩⟩ (1 / 6) ≠
      .error () :=
  (steady_state_no_throw
    ⟨[⟨"a", [⟨0, some [⟨0, 0, 0⟩], none⟩, ⟨10, some [⟨1, 1, 1⟩], none⟩],
        false, [], 0, true⟩], 0, 1, true, true, 1, ⟨none, none⟩⟩
    (by intro sp hsp; simp at hsp; subst hsp; left; intro f hf; fin_cases hf <;> rfl)
    (1 / 6) 0 0).1

/-- C4: with loop on, playing, and a positive duration, `update` sets
`currentTime` to `(currentTime + deltaTime * speed) % duration` (the JS
remainder), which for a non-negative advanced time equals the true
mathematical modulus `duration * fract(time / duration)`; arbitrarily
large `deltaTime` re-enters at the remainder. -/
theorem update_loop_wraparound (s : LoaderState) (dt : ℚ)
    (hl : s.loop = true) (hp : s.isPlaying = true) (hd : 0 < s.duration) :
    (updateTime s dt).currentTime = jsMod (s.currentTime + dt * s.speed) s.duration ∧
    (0 ≤ s.currentTime + dt * s.speed →
      (updateTime s dt).currentTime =
        s.duration * Int.fract ((s.currentTime + dt * s.speed) / s.duration)) ∧
    ∀ s2, update s dt = .ok s2 →
      s2.currentTime = jsMod (s.currentTime + dt * s.speed) s.duration := by
  have h1 : (updateTime s dt).currentTime =
      jsMod (s.currentTime + dt * s.speed) s.duration := by
    simp [updateTime, hl]
  refine ⟨h1, fun hnn => by rw [h1, jsMod_eq_fract _ _ hnn hd], fun s2 h2 => ?_⟩
  unfold update at h2
  rw [if_neg (by simp [hp, hd.ne.symm])] at h2
  obtain ⟨l, _, hs2⟩ := updateSplines_ok_shape _ _ h2
  rw [hs2]
  exact h1

/-- C4 witness: duration 10, speed 1, from time 7 an `update 7` lands at
`14 % 10 = 4`, not 14 (the second step of the spec's two-step scenario). -/
theorem update_loop_wraparound_witness :
    (updateTime ⟨[], 7, 10, true, true, 1, ⟨none, none⟩⟩ 7).currentTime = 4 := by
  have h := update_loop_wraparound ⟨[], 7, 10, true, true, 1, ⟨none, none⟩⟩ 7
    rfl rfl (by norm_num)
  rw [h.1]
  norm_num [jsMod, truncQ]

/-- C5: with loop off, playing, and a positive duration, `update` clamps
`currentTime` to at most `duration` (via `min`) and leaves the playing
state exactly when the advanced time reaches or passes the duration. -/
theorem update_nonloop_clamp (s : LoaderState) (dt : ℚ)
    (hl : s.loop = false) (hp : s.isPlaying = true) (hd : 0 < s.duration) :
    (updateTime s dt).currentTime = min (s.currentTime + dt * s.speed) s.duration ∧
    (updateTime s dt).currentTime ≤ s.duration ∧
    ((updateTime s dt).isPlaying = false ↔
      s.duration ≤ s.currentTime + dt * s.speed) ∧
    ∀ s2, update s dt = .ok s2 →
      s2.currentTime = min (s.currentTime + dt * s.speed) s.duration ∧
      s2.currentTime ≤ s.duration ∧
      (s2.isPlaying = false ↔ s.duration ≤ s.currentTime + dt * s.speed) := by
  have h1 : (updateTime s dt).currentTime =
      min (s.currentTime + dt * s.speed) s.duration := by
    simp [updateTime, hl]
  have h2 : (updateTime s dt).isPlaying = false ↔
      s.duration ≤ s.currentTime + dt * s.speed := by
    simp only [updateTime, hl, Bool.false_eq_true, if_false]
    constructor
    · intro hh
      by_contra hc
      rw [if_neg (by rw [le_min_iff]; exact fun hmin => hc hmin.1)] at hh
      rw [hp] at hh
      exact absurd hh (by simp)
    · intro hh
      rw [if_pos (le_min_iff.mpr ⟨hh, le_refl _⟩)]
  refine ⟨h1, h1 ▸ min_le_right _ _, h2, fun s2 hs2 => ?_⟩
  unfold update at hs2
  rw [if_neg (by simp [hp, hd.ne.symm])] at hs2
  obtain ⟨l, _, hshape⟩ := updateSplines_ok_shape _ _ hs2
  rw [hshape]
  exact ⟨h1, h1 ▸ min_le_right _ _, h2⟩

/-- C5 witness: duration 5, speed 1, `update 8` from time 0 yields
`currentTime = 5` and leaves the playing state. -/
theorem update_nonloop_clamp_witness :
    (updateTime ⟨[], 0, 5, true, false, 1, ⟨none, none⟩⟩ 8).currentTime = 5 ∧
    (updateTime ⟨[], 0, 5, true, false, 1, ⟨none, none⟩⟩ 8).isPlaying = false := by
  have h := update_nonloop_clamp ⟨[], 0, 5, true, false, 1, ⟨none, none⟩⟩ 8
    rfl rfl (by norm_num)
  refine ⟨?_, h.2.2.1.mpr (by norm_num)⟩
  rw [h.1]
  norm_num

end SplineAnim

namespace SplineAnim

/-- C6: when both bracketing frames carry curve segments (each with a
control-point array), interpolation pairs segments by index up to the
minimum segment count, silently dropping the longer side's extras, and
within each pair lerps the control points (knot, inHandle, outHandle
independently, component-wise) up to the minimum point count. -/
theorem interpolateBezierCurves_pairwise (cs1 cs2 : List Curve) (t : ℚ)
    (h1 : ∀ c ∈ cs1, c.points.isSome) (h2 : ∀ c ∈ cs2, c.points.isSome) :
    (interpolateBezierCurves cs1 cs2 t).length = min cs1.length cs2.length ∧
    ∀ i : ℕ, (interpolateBezierCurves cs1 cs2 t).get? i =
      (cs1.get? i).bind (fun c1 => (cs2.get? i).map (fun c2 =>
        { splineIndex := resolveSplineIndex c1.splineIndex c2.splineIndex i,
          points := some (List.zipWith (fun p q => lerpCP p q t)
            (c1.points.getD []) (c2.points.getD [])) })) := by
  refine ⟨interpCurvesGo_length t cs1 cs2 0 h1 h2, fun i => ?_⟩
  have h := interpCurvesGo_get t cs1 cs2 0 i h1 h2
  rw [Nat.zero_add] at h
  exact h

/-- C6 witness: two single-point segments with knots (0,0,0) and (10,0,0)
(zero-length handles) at factor 1/2 yield a synthetic knot at (5,0,0). -/
theorem interpolateBezierCurves_pairwise_witness :
    (interpolateBezierCurves
        [⟨none, some [⟨⟨0, 0, 0⟩, ⟨0, 0, 0⟩, ⟨0, 0, 0⟩⟩]⟩]
        [⟨none, some [⟨⟨10, 0, 0⟩, ⟨10, 0, 0⟩, ⟨10, 0, 0⟩⟩]⟩] (1 / 2)).get? 0 =
      some ⟨some 1, some [⟨⟨5, 0, 0⟩, ⟨5, 0, 0⟩, ⟨5, 0, 0⟩⟩]⟩ := by
  have h := interpolateBezierCurves_pairwise
    [⟨none, some [⟨⟨0, 0, 0⟩, ⟨0, 0, 0⟩, ⟨0, 0, 0⟩⟩]⟩]
    [⟨none, some [⟨⟨10, 0, 0⟩, ⟨10, 0, 0⟩, ⟨10, 0, 0⟩⟩]⟩] (1 / 2)
    (by simp) (by simp)
  rw [h.2 0]
  norm_num [resolveSplineIndex, jsOrQ, lerpCP, lerpP, lerpQ]

/-- C7 counterexample: the invariant `currentTime ∈ [0, duration]` fails
after a public operation.  From the valid state (time 0, duration 10,
looping, playing, speed 1), `update (-1)` finishes with
`currentTime = -1 < 0` (the JS remainder keeps the dividend's sign), and
this is the final state of the call, not a transient of the wrap. -/
theorem currentTime_invariant_cex :
    update ⟨[], 0, 10, true, true, 1, ⟨none, none⟩⟩ (-1) =
      .ok ⟨[], -1, 10, true, true, 1, ⟨none, none⟩⟩ ∧ ¬ (0 ≤ (-1 : ℚ)) := by
  constructor
  · norm_num [update, updateTime, jsMod, truncQ, updateSplines, updateSplinesList,
      Except.map]
  · norm_num

/-- C7 amended: from any state satisfying `0 ≤ currentTime ≤ duration`,
the invariant is preserved by `play`, `pause`, `stop`, `setTime` and
`setProgress` unconditionally, and by `update dt` whenever the effective
step `dt * speed` is non-negative; a negative effective step can drive
`currentTime` below 0 (negative JS remainder under looping, no lower
clamp otherwise). -/
theorem currentTime_invariant_preserved (s : LoaderState)
    (h0 : 0 ≤ s.currentTime) (h1 : s.currentTime ≤ s.duration) :
    (0 ≤ (play s).currentTime ∧ (play s).currentTime ≤ (play s).duration) ∧
    (0 ≤ (pause s).currentTime ∧ (pause s).currentTime ≤ (pause s).duration) ∧
    (∀ s2, stop s = .ok s2 → 0 ≤ s2.currentTime ∧ s2.currentTime ≤ s2.duration) ∧
    (∀ t s2, setTime s t = .ok s2 → 0 ≤ s2.currentTime ∧ s2.currentTime ≤ s2.duration) ∧
    (∀ p s2, setProgress s p = .ok s2 →
      0 ≤ s2.currentTime ∧ s2.currentTime ≤ s2.duration) ∧
    (∀ dt s2, 0 ≤ dt * s.speed → update s dt = .ok s2 →
      0 ≤ s2.currentTime ∧ s2.currentTime ≤ s2.duration) := by
  have hdur : 0 ≤ s.duration := h0.trans h1
  have hset : ∀ t s2, setTime s t = .ok s2 →
      0 ≤ s2.currentTime ∧ s2.currentTime ≤ s2.duration := by
    intro t s2 hok
    obtain ⟨l, _, hs2⟩ := updateSplines_ok_shape _ _ hok
    rw [hs2]
    dsimp only
    exact ⟨le_max_left _ _, max_le hdur (min_le_right t s.duration)⟩
  refine ⟨⟨h0, h1⟩, ⟨h0, h1⟩, ?_, hset, fun p s2 hok => hset _ s2 hok, ?_⟩
  · intro s2 hok
    obtain ⟨l, _, hs2⟩ := updateSplines_ok_shape _ _ hok
    rw [hs2]
    exact ⟨le_refl 0, hdur⟩
  · intro dt s2 hstep hok
    unfold update at hok
    split at hok
    · simp only [Except.ok.injEq] at hok
      subst hok
      exact ⟨h0, h1⟩
    · rename_i hguard
      have hdpos : 0 < s.duration :=
        lt_of_le_of_ne hdur (fun he => hguard (Or.inr he.symm))
      obtain ⟨l, _, hs2⟩ := updateSplines_ok_shape _ _ hok
      rw [hs2]
      obtain ⟨hd, -, -, -⟩ := updateTime_scalar s dt
      simp only [hd]
      have hct : 0 ≤ s.currentTime + dt * s.speed := add_nonneg h0 hstep
      unfold updateTime
      rcases hloop : s.loop with _ | _
      · simp only [Bool.false_eq_true, if_false]
        exact ⟨le_min hct hdur, min_le_right _ _⟩
      · simp only [if_true]
        exact ⟨jsMod_nonneg _ _ hct hdpos, (jsMod_lt _ _ hct hdpos).le⟩

/-- C7 witness: the invariant-preservation theorem applied at a concrete
valid state: after `setTime 100` on a duration-10 state the time is
clamped into `[0, duration]`. -/
theorem currentTime_invariant_preserved_witness :
    0 ≤ (⟨[], 10, 10, false, true, 1, ⟨none, none⟩⟩ : LoaderState).currentTime ∧
    (⟨[], 10, 10, false, true, 1, ⟨none, none⟩⟩ : LoaderState).currentTime ≤
      (⟨[], 10, 10, false, true, 1, ⟨none, none⟩⟩ : LoaderState).duration := by
  have h := currentTime_invariant_preserved ⟨[], 2, 10, false, true, 1, ⟨none, none⟩⟩
    (by norm_num) (by norm_num)
  exact h.2.2.2.1 100 ⟨[], 10, 10, false, true, 1, ⟨none, none⟩⟩
    (by norm_num [setTime, updateSplines, updateSplinesList, Except.map])

/-- C10: scrubbing has no frame effect beyond time and derived buffers:
whenever `setTime` (or `setProgress`) succeeds, the playing flag, loop
flag, speed, duration and metadata are unchanged, the track count is
unchanged, and every track keeps its name, frames, closed flag, material
and visibility (only the buffer may differ) — scrubbing never starts or
stops playback. -/
theorem scrub_frame_effect (s : LoaderState) :
    (∀ t s2, setTime s t = .ok s2 →
      s2.isPlaying = s.isPlaying ∧ s2.loop = s.loop ∧ s2.speed = s.speed ∧
      s2.duration = s.duration ∧ s2.metadata = s.metadata ∧
      s2.splines.length = s.splines.length ∧
      ∀ i sp, s.splines.get? i = some sp → ∃ sp2, s2.splines.get? i = some sp2 ∧
        sp2.name = sp.name ∧ sp2.frames = sp.frames ∧ sp2.closed = sp.closed ∧
        sp2.material = sp.material ∧ sp2.visible = sp.visible) ∧
    (∀ p s2, setProgress s p = .ok s2 →
      s2.isPlaying = s.isPlaying ∧ s2.loop = s.loop ∧ s2.speed = s.speed ∧
      s2.duration = s.duration ∧ s2.metadata = s.metadata ∧
      s2.splines.length = s.splines.length ∧
      ∀ i sp, s.splines.get? i = some sp → ∃ sp2, s2.splines.get? i = some sp2 ∧
        sp2.name = sp.name ∧ sp2.frames = sp.frames ∧ sp2.closed = sp.closed ∧
        sp2.material = sp.material ∧ sp2.visible = sp.visible) := by
  have hmain : ∀ t s2, setTime s t = .ok s2 →
      s2.isPlaying = s.isPlaying ∧ s2.loop = s.loop ∧ s2.speed = s.speed ∧
      s2.duration = s.duration ∧ s2.metadata = s.metadata ∧
      s2.splines.length = s.splines.length ∧
      ∀ i sp, s.splines.get? i = some sp → ∃ sp2, s2.splines.get? i = some sp2 ∧
        sp2.name = sp.name ∧ sp2.frames = sp.frames ∧ sp2.closed = sp.closed ∧
        sp2.material = sp.material ∧ sp2.visible = sp.visible := by
    intro t s2 hok
    obtain ⟨l, hl, hs2⟩ := updateSplines_ok_shape _ _ hok
    subst hs2
    refine ⟨rfl, rfl, rfl, rfl, rfl, updateSplinesList_length _ _ _ _ hl, ?_⟩
    intro i sp hg
    obtain ⟨sp2, hg2, hup⟩ := updateSplinesList_get _ _ _ _ hl i sp hg
    exact ⟨sp2, hg2, updateSplineGeometry_fields _ _ _ _ hup⟩
  exact ⟨hmain, fun p s2 hok => hmain _ s2 hok⟩

/-- C10 witness: a concrete scrub leaves the playing flag (and the rest of
the non-derived state) as it was. -/
theorem scrub_frame_effect_witness :
    (⟨[⟨"a", [], false, [], 0, true⟩], 3, 10, true, true, 1, ⟨none, none⟩⟩
        : LoaderState).isPlaying =
      (⟨[⟨"a", [], false, [], 0, true⟩], 1, 10, true, true, 1, ⟨none, none⟩⟩
        : LoaderState).isPlaying := by
  have h := (scrub_frame_effect
    ⟨[⟨"a", [], false, [], 0, true⟩], 1, 10, true, true, 1, ⟨none, none⟩⟩).1 3
    ⟨[⟨"a", [], false, [], 0, true⟩], 3, 10, true, true, 1, ⟨none, none⟩⟩
    (by norm_num [setTime, updateSplines, updateSplinesList, updateSplineGeometry,
      resolveBracket, findBracket, Except.map, Bind.bind, Except.bind])
  exact h.1

end SplineAnim
